import Mathlib

/-!
Shallow embedding, in Lean 4, of the JAMA REST client `jamarest.py`
(class `jama` plus the module-level `rate_limited` decorator) from the
`python-jamarest` repository, together with theorems settling the frozen
claims about its specification.

Python dictionaries with string keys are embedded as association lists
(`List (String × V)`) with in-place update modelled by functional update;
the HTTP transport is an oracle supplied as an argument (a function from
attempt index to outcome, or a prepared response), and wall-clock time is
made explicit as rational-number state threaded through the rate limiter.
-/

/-! ## Association-list operations (Python `dict` with string keys) -/

/-- Lookup of `d[k]`: first binding of the key, if any. -/
def getKey {V : Type} : List (String × V) → String → Option V
  | [], _ => none
  | (k0, v0) :: rest, k => if k0 = k then some v0 else getKey rest k

/-- Assignment `d[k] = v`: overwrite the first binding in place, or append
a new binding at the end (Python dicts keep insertion order). -/
def setKey {V : Type} : List (String × V) → String → V → List (String × V)
  | [], k, v => [(k, v)]
  | (k0, v0) :: rest, k, v =>
    if k0 = k then (k, v) :: rest else (k0, v0) :: setKey rest k v

/-- Deletion `del d[k]`: remove the first binding of the key. -/
def eraseKey {V : Type} : List (String × V) → String → List (String × V)
  | [], _ => []
  | (k0, v0) :: rest, k => if k0 = k then rest else (k0, v0) :: eraseKey rest k

/-- Membership `k in d`. -/
def hasKey {V : Type} (d : List (String × V)) (k : String) : Bool :=
  (getKey d k).isSome

/-! ## URL assembly shared by `ask` and `_request` -/

/-- Leading-slash normalisation: `if resource[0] != "/": resource = "/" + resource`. -/
def leadSlash (resource : String) : String :=
  if String.startsWith resource ("/") then resource else "/" ++ resource

/-- `full_url = self.base_url + resource` after normalisation. -/
def fullUrl (base resource : String) : String :=
  base ++ leadSlash resource

/-! ## Rate limiter (`rate_limited` decorator) and the request timeline -/

/-- `min_interval = 1.0 / float(max_per_second)` from the decorator. -/
def minIntervalOf (maxPerSecond : ℚ) : ℚ :=
  1 / maxPerSecond

/-- Kind of outgoing HTTP request: a GET issued through the decorated `ask`,
or a write issued through `_request` (`put`/`post`/`_delete`), which is not
decorated. -/
inductive ReqKind where
  | get
  | write
deriving DecidableEq, Repr

/-- One outgoing call in a timeline: its kind, the caller think-time `gap`
elapsing before the call is invoked, and the network duration `dur` of the
underlying transport call. -/
structure Call where
  kind : ReqKind
  gap : ℚ
  dur : ℚ
deriving DecidableEq, Repr

/-- Start time of a rate-limited GET invoked at wall time `t` when the
shared cell holds `last`: the wrapper computes
`left_to_wait = min_interval - (t - last)` and sleeps exactly that long
when it is positive, so the transport call begins at `t + left_to_wait`;
otherwise it begins at once. -/
def askStart (minI t last : ℚ) : ℚ :=
  if 0 < minI - (t - last) then t + (minI - (t - last)) else t

/-- Timeline semantics of a sequence of calls through one client.
State: current wall clock `now` and the decorator closure cell
`last_time_called[0] = last`.  A `get` runs the `rate_limited_function`
wrapper: it sleeps per `askStart`, performs the transport call, and only
then stores the completion time back into the shared cell.  A `write` runs
`_request`, which performs the transport call immediately and never
touches the cell.  Returns the (kind, start-time) of each transport call,
in order. -/
def runCalls (minI : ℚ) : List Call → ℚ → ℚ → List (ReqKind × ℚ)
  | [], _, _ => []
  | c :: rest, now, last =>
    match c.kind with
    | ReqKind.get =>
      let start := askStart minI (now + c.gap) last
      (ReqKind.get, start) :: runCalls minI rest (start + c.dur) (start + c.dur)
    | ReqKind.write =>
      (ReqKind.write, now + c.gap) :: runCalls minI rest (now + c.gap + c.dur) last

/-- Start times of the GET requests in a timeline, in order. -/
def getStarts (events : List (ReqKind × ℚ)) : List ℚ :=
  (events.filter fun p =>
    match p.1 with
    | ReqKind.get => true
    | ReqKind.write => false).map Prod.snd

/-! ## The single-request primitive `ask` (GET with throttle retry) -/

/-- An HTTP response as the client observes it: its status code plus a tag
distinguishing distinct responses with equal status. -/
structure Resp where
  status : Nat
  tag : Nat
deriving DecidableEq, Repr

/-- Outcome of one `requests.get` transport attempt: either it raises
`requests.exceptions.ConnectionError` or it yields a response. -/
inductive GetOutcome where
  | connError
  | resp (r : Resp)
deriving DecidableEq, Repr

/-- Exceptions `ask` can let escape: an uncaught second `ConnectionError`,
the `Exception("JAMA overload")` after two 429s, and the
`Exception(f"JAMA API Non-success code {status_code} for {full_url}")`
carrying the status code and the full URL. -/
inductive AskError where
  | connectionError
  | overload
  | nonSuccess (code : Nat) (url : String)
deriving DecidableEq, Repr

/-- Renders each `AskError` as the Python exception message it embeds. -/
def askErrorMsg : AskError → String
  | AskError.connectionError => "requests.exceptions.ConnectionError"
  | AskError.overload => "JAMA overload"
  | AskError.nonSuccess code url =>
    "JAMA API Non-success code " ++ toString code ++ " for " ++ url

/-- Result of one `ask` invocation: the value returned or exception raised,
the number of transport GETs performed, and the total time spent in
`time.sleep` (the rate-limiter wait is accounted separately in `runCalls`). -/
structure AskRun where
  result : Except AskError Resp
  gets : Nat
  slept : ℚ
deriving Repr

/-- The tail of `ask` after a first response `r` has been obtained (having
used `used` transport GETs): the 429 branch sleeps `retry_delay`, retries
once and fails with "JAMA overload" only on a second 429; otherwise any
status at or above 300 raises with the status code and URL; otherwise `r`
is returned. -/
def askAfterFirst (url : String) (retry_delay : ℚ) (get : Nat → GetOutcome)
    (used : Nat) (r : Resp) : AskRun :=
  if r.status = 429 then
    match get used with
    | GetOutcome.connError => ⟨Except.error AskError.connectionError, used + 1, retry_delay⟩
    | GetOutcome.resp r2 =>
      if r2.status = 429 then
        ⟨Except.error AskError.overload, used + 1, retry_delay⟩
      else
        ⟨Except.ok r2, used + 1, retry_delay⟩
  else if 300 ≤ r.status then
    ⟨Except.error (AskError.nonSuccess r.status url), used, 0⟩
  else
    ⟨Except.ok r, used, 0⟩

/-- `jama.ask`: normalise the resource path, perform the GET (retrying
exactly once, immediately, on a connection-level failure), then apply the
throttle/error handling of `askAfterFirst`.  The transport is the oracle
`get`, indexed by attempt number. -/
def askModel (base resource : String) (retry_delay : ℚ)
    (get : Nat → GetOutcome) : AskRun :=
  let url := fullUrl base resource
  match get 0 with
  | GetOutcome.connError =>
    match get 1 with
    | GetOutcome.connError => ⟨Except.error AskError.connectionError, 2, 0⟩
    | GetOutcome.resp r => askAfterFirst url retry_delay get 2 r
  | GetOutcome.resp r => askAfterFirst url retry_delay get 1 r

/-! ## The write primitive `_request` (`put`/`post`/`_delete`) -/

/-- The message of the `Exception` object that `_request` constructs on a
401 response: `f"JAMA API Unauthorised when attempting {rstr} as {self.auth[0]}"`. -/
def unauthorizedMsg (rstr user : String) : String :=
  "JAMA API Unauthorised when attempting " ++ rstr ++ " as " ++ user

/-- Side effects of `_request` that are visible but do not alter control
flow; constructing an exception object without raising it is one. -/
inductive WriteEffect where
  | constructedException (msg : String)
deriving DecidableEq, Repr

/-- `jama._request`: normalise the path, issue the write through the
transport (`rtype(full_url, auth=self.auth, json=json)`, supplied here as
the prepared response `resp`), and on a 401 status construct — but never
raise — the unauthorised `Exception`; the response is returned to the
caller unconditionally.  The return type has no error channel because no
path of the function raises. -/
def requestWrite (base resource rstr user : String) (resp : Resp) :
    Resp × List WriteEffect :=
  let _url := fullUrl base resource
  if resp.status = 401 then
    (resp, [WriteEffect.constructedException (unauthorizedMsg rstr user)])
  else
    (resp, [])

/-! ## `_delete` and `remove_testrun`

`_delete` is `return self._request(resource, json, requests.delete, "DELETE")`.
The bare name `json` is not a parameter of `_delete`, is not a local, and is
not bound at module level — `jamarest.py` never imports the `json` module
(its imports are `urllib.parse`, `urllib.error`, `requests`, `time`, `re`
and `BeautifulSoup`) — so evaluating the argument list raises `NameError`
before `_request` is entered. -/

/-- The names bound at module level in `jamarest.py`: the imported modules,
the name bound by the `from bs4 import` statement, and the two module-level
definitions. -/
def jamarestModuleGlobals : List String :=
  ["urllib", "requests", "time", "re", "BeautifulSoup", "rate_limited", "jama"]

/-- Result of a `_delete`-based operation: the value returned or the
exception raised, and how many HTTP requests actually reached the
transport. -/
structure DeleteOut where
  result : Except String Resp
  httpRequests : Nat
deriving Repr

/-- `jama._delete`: Python evaluates the argument expression `json` (a bare
global name) before calling `self._request`; if the name is unbound this
raises `NameError` and no request is issued.  Were the name bound, the call
would go through `requestWrite` with `"DELETE"`. -/
def deleteModel (base user resource : String) (transport : Resp) : DeleteOut :=
  if jamarestModuleGlobals.contains ("json") then
    ⟨Except.ok (requestWrite base resource ("DELETE") user transport).1, 1⟩
  else
    ⟨Except.error ("NameError: name json is not defined"), 0⟩

/-- `jama.remove_testrun`: `return self._delete(f"/testruns/{testrun}")`. -/
def remove_testrun (base user : String) (testrun : Nat) (transport : Resp) : DeleteOut :=
  deleteModel base user ("/testruns/" ++ toString testrun) transport

/-! ## The paginated fetch `ask_big`

The embedding covers the default `field="data"` mode used by the claims:
each page envelope carries a `data` field that is either a list of items or
a single object (some endpoints return one resource under `data`, in which
case `ask_big` returns it at once), plus `meta.pageInfo.totalResults`.
The `linked`/`tc` accumulation modes are outside the claims and omitted.
Query arguments are the association list of the caller's `args` dict, whose
in-place mutation (`args["maxResults"] = 50`, `args["startAt"] = start_at`)
the model returns explicitly. -/

/-- The `data` field of a page envelope. -/
inductive DataField (α : Type) where
  | list (xs : List α)
  | single (x : α)
deriving DecidableEq, Repr

/-- One page envelope: the `data` field and
`meta.pageInfo.totalResults`. -/
structure PageResp (α : Type) where
  data : DataField α
  totalResults : Nat
deriving DecidableEq, Repr

/-- What `ask_big` returns in `data` mode: the accumulated list, or the
single object returned early when a page's `data` is a dict. -/
inductive FetchResult (α : Type) where
  | items (xs : List α)
  | single (x : α)
deriving DecidableEq, Repr

/-- Observable outcome of one `ask_big` call: its return value, the
`startAt` offset of every request issued (in order), and the caller's
`args` dict as the call leaves it. -/
structure AskBigOut (α : Type) where
  result : FetchResult α
  offsets : List Nat
  finalArgs : List (String × Nat)
deriving DecidableEq, Repr

/-- The `while True` loop of `ask_big`: each round stores `start_at` into
`args`, issues the request (the server is the oracle `server`, indexed by
the `startAt` sent), returns at once if `data` is a single object,
otherwise appends the page to the accumulator, advances the offset by the
fixed page size 50 and breaks once the new offset reaches the envelope's
`totalResults`.  `fuel` bounds the number of rounds so the unbounded loop
is total; `none` means the fuel ran out before the loop broke. -/
def askBigLoop {α : Type} (server : Nat → PageResp α) :
    Nat → Nat → List α → List (String × Nat) → Option (AskBigOut α)
  | 0, _, _, _ => none
  | fuel + 1, startAt, acc, args =>
    let args2 := setKey args ("startAt") startAt
    let resp := server startAt
    match resp.data with
    | DataField.single x => some ⟨FetchResult.single x, [startAt], args2⟩
    | DataField.list xs =>
      let acc2 := acc ++ xs
      if resp.totalResults ≤ startAt + 50 then
        some ⟨FetchResult.items acc2, [startAt], args2⟩
      else
        match askBigLoop server fuel (startAt + 50) acc2 args2 with
        | none => none
        | some out => some ⟨out.result, startAt :: out.offsets, out.finalArgs⟩

/-- `jama.ask_big` in `data` mode: set `args["maxResults"] = 50` (the hard
server-side page-size ceiling), start at offset 0 with an empty
accumulator, and run the pagination loop. -/
def ask_bigModel {α : Type} (server : Nat → PageResp α)
    (args0 : List (String × Nat)) (fuel : Nat) : Option (AskBigOut α) :=
  askBigLoop server fuel 0 [] (setKey args0 ("maxResults") 50)

/-- A consistent paginating server over a fixed result set: a request at
offset `startAt` answers with the slice of at most 50 items from that
offset and reports the set's size as `totalResults` in every envelope. -/
def serverOf {α : Type} (allItems : List α) : Nat → PageResp α :=
  fun startAt => ⟨DataField.list ((allItems.drop startAt).take 50), allItems.length⟩

/-- A call of `ask_big` that omits the `args` argument: the default
`args={}` is a single dict object created once at function definition and
mutated in place, so such a call reads whatever the shared dict currently
holds and leaves its own mutations behind for the next call that omits
`args`.  Returns the call's outcome together with the shared dict's new
contents. -/
def askBigOmittingArgs {α : Type} (server : Nat → PageResp α) (fuel : Nat)
    (sharedDefault : List (String × Nat)) :
    Option (AskBigOut α × List (String × Nat)) :=
  match ask_bigModel server sharedDefault fuel with
  | none => none
  | some out => some (out, out.finalArgs)

/-- Number of requests the loop makes to drain a result set of size `L`
from offset `s`: one per full or short page remaining, and always at
least one because the loop body runs before the termination test. -/
def pages (L s : Nat) : Nat :=
  max 1 ((L - s + 49) / 50)

/-! ## `ask_id`: find id by field match -/

/-- An item of a fetched result set, as `ask_id` uses it: its `id` and its
other string-valued entries. -/
structure JItem where
  id : Int
  fields : List (String × String)
deriving DecidableEq, Repr

/-- What `ask_id` returns: the matched id, or the Python literal `False`
used as a falsy sentinel for an empty result set. -/
inductive AskIdResult where
  | found (id : Int)
  | sentinelFalse
deriving DecidableEq, Repr

/-- `f"Could not find {resource} with {field} matching {name}"`. -/
def notFoundMsg (resource fieldName target : String) : String :=
  "Could not find " ++ resource ++ " with " ++ fieldName ++ " matching " ++ target

/-- The generator scan `next((item["id"] for item in resp if item[field] == name))`:
walks the items; an item without the field raises `KeyError` (which the
surrounding `except StopIteration` does not catch), a matching item yields
its id, and exhaustion yields `none` (the `StopIteration` case). -/
def firstMatch (fieldName target : String) : List JItem → Except String (Option Int)
  | [] => Except.ok none
  | it :: rest =>
    match getKey it.fields fieldName with
    | none => Except.error ("KeyError: " ++ fieldName)
    | some v =>
      if v = target then Except.ok (some it.id) else firstMatch fieldName target rest

/-- `jama.ask_id` on an already-fetched result set `items`: an empty set is
falsy, so `False` is returned; otherwise the first matching id is returned,
and exhaustion of the generator (`StopIteration`) is turned into the fatal
not-found exception naming the resource, the field and the target. -/
def ask_id (resource target fieldName : String) (items : List JItem) :
    Except String AskIdResult :=
  if items.isEmpty then
    Except.ok AskIdResult.sentinelFalse
  else
    match firstMatch fieldName target items with
    | Except.ok (some i) => Except.ok (AskIdResult.found i)
    | Except.ok none => Except.error (notFoundMsg resource fieldName target)
    | Except.error e => Except.error e

/-! ## `checkout_runsteps` / `checkin_runsteps` -/

/-- A JSON-like value, for the contents of a test run's `fields` dict. -/
inductive JVal where
  | str (s : String)
  | num (n : Int)
  | boolean (b : Bool)
  | arr (xs : List JVal)
  | obj (kvs : List (String × JVal))
deriving Repr

/-- The decoded `meta` part of the PUT response's envelope, as
`checkin_runsteps` consults it: `resp["meta"]["status"]` and
`resp["meta"]["message"]`. -/
structure Envelope where
  metaStatus : String
  metaMessage : String
deriving DecidableEq, Repr

/-- Observable outcome of one `checkin_runsteps` call: the value returned
or exception raised, the `fields` dict submitted in the PUT body (if the
call got that far), and whether `unlock_testrun` was reached. -/
structure CheckinOut where
  result : Except String Envelope
  submitted : Option (List (String × JVal))
  unlocked : Bool
deriving Repr

/-- The field-clearing preamble of `checkin_runsteps`:
`try: del fields["testRunStatus"]; del fields["executionDate"]
except KeyError: pass`.  The first `del` raises `KeyError` when its key is
absent, and the handler then skips the second `del` entirely. -/
def clearManagedFields (fields : List (String × JVal)) : List (String × JVal) :=
  if hasKey fields ("testRunStatus") then
    let f1 := eraseKey fields ("testRunStatus")
    if hasKey f1 ("executionDate") then eraseKey f1 ("executionDate") else f1
  else
    fields

/-- `f"checkin_runsteps on run {testrun} ERROR: {resp['meta']['message']}, ({len(steps)} steps)"`. -/
def checkinErrMsg (testrun : Nat) (message : String) (nsteps : Nat) : String :=
  "checkin_runsteps on run " ++ toString testrun ++ " ERROR: " ++ message ++
    ", (" ++ toString nsteps ++ " steps)"

/-- `jama.checkin_runsteps`: fetch the run's `fields`, clear the two
server-managed fields by the (aborting) deletion sequence, install the new
step list and the optional tester/result-text overrides, submit the PUT and
decode its body (`putDecode` is the oracle for that decode: `none` models a
body `.json()` cannot parse, whose exception propagates before the unlock),
then release the lock, and only then raise if the envelope reports
`Bad Request`. -/
def checkin_runsteps (testrun : Nat) (fetchedFields : List (String × JVal))
    (steps : List JVal) (tester : Option Int) (resulttext : Option String)
    (putDecode : Option Envelope) : CheckinOut :=
  let fields0 := clearManagedFields fetchedFields
  let fields1 := setKey fields0 ("testRunSteps") (JVal.arr steps)
  let fields2 :=
    match tester with
    | some t => setKey fields1 ("assignedTo") (JVal.num t)
    | none => fields1
  let fields3 :=
    match resulttext with
    | some r => setKey fields2 ("actualResults") (JVal.str r)
    | none => fields2
  match putDecode with
  | none => ⟨Except.error ("JSONDecodeError"), some fields3, false⟩
  | some env =>
    if env.metaStatus = "Bad Request" then
      ⟨Except.error (checkinErrMsg testrun env.metaMessage steps.length),
        some fields3, true⟩
    else
      ⟨Except.ok env, some fields3, true⟩

/-! ## Helper lemmas -/

theorem setKey_setKey {V : Type} (d : List (String × V)) (k : String) (v w : V) :
    setKey (setKey d k v) k w = setKey d k w := by
  induction d with
  | nil => simp [setKey]
  | cons p rest ih =>
    obtain ⟨k0, v0⟩ := p
    by_cases h : k0 = k
    · subst h; simp [setKey]
    · simp [setKey, h, ih]

theorem getKey_setKey_self {V : Type} (d : List (String × V)) (k : String) (v : V) :
    getKey (setKey d k v) k = some v := by
  induction d with
  | nil => simp [setKey, getKey]
  | cons p rest ih =>
    obtain ⟨k0, v0⟩ := p
    by_cases h : k0 = k
    · subst h; simp [setKey, getKey]
    · simp [setKey, getKey, h, ih]

theorem getKey_setKey_ne {V : Type} (d : List (String × V)) (k k2 : String) (v : V)
    (h : k2 ≠ k) : getKey (setKey d k v) k2 = getKey d k2 := by
  induction d with
  | nil =>
    simp only [setKey, getKey]
    rw [if_neg fun hk => h hk.symm]
  | cons p rest ih =>
    obtain ⟨k0, v0⟩ := p
    simp only [setKey]
    by_cases hk : k0 = k
    · rw [if_pos hk]
      simp only [getKey]
      rw [if_neg fun hh => h hh.symm, if_neg fun hh => h (hk.symm.trans hh).symm]
    · rw [if_neg hk]
      simp only [getKey]
      by_cases hk2 : k0 = k2
      · rw [if_pos hk2, if_pos hk2]
      · rw [if_neg hk2, if_neg hk2, ih]

theorem pages_pos (L s : Nat) : 1 ≤ pages L s := by
  unfold pages; omega

theorem pages_last {L s : Nat} (h : L ≤ s + 50) : pages L s = 1 := by
  unfold pages; omega

theorem pages_step {L s : Nat} (h : s + 50 < L) :
    pages L s = pages L (s + 50) + 1 := by
  unfold pages; omega

theorem range'_one (s step : Nat) : List.range' s 1 step = [s] := rfl

theorem range'_succ_cons (s n step : Nat) :
    List.range' s (n + 1) step = s :: List.range' (s + step) n step := rfl

theorem range'_getLast? (step : Nat) :
    ∀ (n s : Nat), 1 ≤ n →
      (List.range' s n step).getLast? = some (s + step * (n - 1))
  | 0, _, h => absurd h (by omega)
  | 1, s, _ => by simp [range'_one]
  | n + 2, s, _ => by
    rw [range'_succ_cons, range'_succ_cons, List.getLast?_cons_cons,
      ← range'_succ_cons, range'_getLast? step (n + 1) (s + step) (by omega)]
    congr 1
    have h1 : n + 1 - 1 = n := rfl
    have h2 : n + 2 - 1 = n + 1 := rfl
    rw [h1, h2]
    ring

/-- Running the pagination loop against a consistent server: for any entry
offset and enough fuel, the loop returns the remaining items appended in
page order, requests exactly the offsets `startAt, startAt+50, ...` (one
per remaining page, at least one), and leaves `args["startAt"]` at the last
requested offset. -/
theorem askBigLoop_serverOf_eq {α : Type} (allItems : List α) :
    ∀ (fuel : Nat) (startAt : Nat) (acc : List α) (args : List (String × Nat)),
      allItems.length ≤ startAt + 50 * fuel → 1 ≤ fuel →
      askBigLoop (serverOf allItems) fuel startAt acc args =
        some ⟨FetchResult.items (acc ++ allItems.drop startAt),
              List.range' startAt (pages allItems.length startAt) 50,
              setKey args ("startAt")
                (startAt + 50 * (pages allItems.length startAt - 1))⟩ := by
  intro fuel
  induction fuel with
  | zero => intro startAt acc args _ h1; exact absurd h1 (by omega)
  | succ f ih =>
    intro startAt acc args hlen _
    by_cases hstop : allItems.length ≤ startAt + 50
    · have hp : pages allItems.length startAt = 1 := pages_last hstop
      have htake : (allItems.drop startAt).take 50 = allItems.drop startAt := by
        apply List.take_of_length_le
        simp only [List.length_drop]
        omega
      simp only [askBigLoop, serverOf]
      rw [if_pos hstop, htake, hp]
      simp [range'_one]
    · have hf1 : 1 ≤ f := by omega
      have hlen2 : allItems.length ≤ (startAt + 50) + 50 * f := by omega
      have hp := pages_step (by omega : startAt + 50 < allItems.length)
      have hp1 := pages_pos allItems.length (startAt + 50)
      simp only [askBigLoop, serverOf]
      rw [if_neg hstop,
        ih (startAt + 50) (acc ++ (allItems.drop startAt).take 50)
          (setKey args ("startAt") startAt) hlen2 hf1]
      have hitems :
          (acc ++ (allItems.drop startAt).take 50) ++ allItems.drop (startAt + 50) =
            acc ++ allItems.drop startAt := by
        rw [List.append_assoc]
        congr 1
        rw [← List.drop_drop, List.take_append_drop]
      have hargs :
          setKey (setKey args ("startAt") startAt) ("startAt")
              ((startAt + 50) + 50 * (pages allItems.length (startAt + 50) - 1)) =
            setKey args ("startAt")
              (startAt + 50 * (pages allItems.length startAt - 1)) := by
        rw [setKey_setKey]
        congr 1
        omega
      rw [hitems, hargs, hp, range'_succ_cons]

theorem askStart_ge (minI t last : ℚ) : last + minI ≤ askStart minI t last := by
  unfold askStart
  split_ifs with hw
  · linarith
  · simp only [not_lt] at hw
    linarith

theorem getStarts_nil : getStarts [] = [] := rfl

theorem getStarts_get_cons (s : ℚ) (l : List (ReqKind × ℚ)) :
    getStarts ((ReqKind.get, s) :: l) = s :: getStarts l := rfl

theorem getStarts_write_cons (t : ℚ) (l : List (ReqKind × ℚ)) :
    getStarts ((ReqKind.write, t) :: l) = getStarts l := rfl

/-- Spacing invariant of a request timeline: provided every call has a
nonnegative think-time and duration and the clock is not behind the shared
cell, every GET in the timeline starts at least `minI` after the cell's
entry value, and any two successive GET start times are at least `minI`
apart — writes in between neither wait nor disturb this, because only the
decorated `ask` reads and writes the shared cell. -/
theorem runCalls_spacing (minI : ℚ) (calls : List Call) :
    ∀ (now last : ℚ), (∀ c ∈ calls, 0 ≤ c.dur ∧ 0 ≤ c.gap) → last ≤ now →
      (∀ s ∈ (getStarts (runCalls minI calls now last)).head?, last + minI ≤ s) ∧
      List.Chain' (fun a b => a + minI ≤ b) (getStarts (runCalls minI calls now last)) := by
  induction calls with
  | nil =>
    intro now last _ _
    constructor
    · intro s hs
      simp [runCalls, getStarts_nil] at hs
    · simp [runCalls, getStarts_nil]
  | cons c rest ih =>
    intro now last hc hnl
    obtain ⟨hd0, hg0⟩ := hc c (List.mem_cons_self _ _)
    have hrest : ∀ x ∈ rest, 0 ≤ x.dur ∧ 0 ≤ x.gap :=
      fun x hx => hc x (List.mem_cons_of_mem _ hx)
    cases hk : c.kind with
    | get =>
      have hstart : last + minI ≤ askStart minI (now + c.gap) last := askStart_ge _ _ _
      obtain ⟨ihhead, ihchain⟩ :=
        ih (askStart minI (now + c.gap) last + c.dur)
          (askStart minI (now + c.gap) last + c.dur) hrest le_rfl
      have hrun : runCalls minI (c :: rest) now last =
          (ReqKind.get, askStart minI (now + c.gap) last) ::
            runCalls minI rest (askStart minI (now + c.gap) last + c.dur)
              (askStart minI (now + c.gap) last + c.dur) := by
        simp only [runCalls, hk]
      rw [hrun, getStarts_get_cons]
      constructor
      · intro s hs
        simp only [List.head?_cons, Option.mem_def, Option.some.injEq] at hs
        exact hs ▸ hstart
      · rw [List.chain'_cons']
        refine ⟨?_, ihchain⟩
        intro y hy
        have hy2 := ihhead y hy
        linarith
    | write =>
      have hrun : runCalls minI (c :: rest) now last =
          (ReqKind.write, now + c.gap) ::
            runCalls minI rest (now + c.gap + c.dur) last := by
        simp only [runCalls, hk]
      obtain ⟨ihhead, ihchain⟩ :=
        ih (now + c.gap + c.dur) last hrest (by linarith)
      rw [hrun, getStarts_write_cons]
      exact ⟨ihhead, ihchain⟩

theorem setKey_pair (v w : Nat) :
    setKey (setKey ([] : List (String × Nat)) ("maxResults") v) ("startAt") w =
      [(("maxResults" : String), v), (("startAt" : String), w)] := rfl

theorem firstMatch_none (fieldName target : String) :
    ∀ (items : List JItem),
      (∀ it ∈ items, ∃ v, getKey it.fields fieldName = some v ∧ v ≠ target) →
      firstMatch fieldName target items = Except.ok none
  | [], _ => rfl
  | it :: rest, hall => by
    obtain ⟨v, hv, hvne⟩ := hall it (List.mem_cons_self _ _)
    simp only [firstMatch, hv]
    rw [if_neg hvne]
    exact firstMatch_none fieldName target rest
      (fun x hx => hall x (List.mem_cons_of_mem _ hx))

/-! ## Claims -/

/-- C1 counterexample: against a server whose reported total is T = 0, the
claim predicates ceil(T/50) = 0 page requests, but `ask_big` issues one
request (at startAt 0) before it first tests the termination condition. -/
theorem C1_counterexample :
    (ask_bigModel (serverOf ([] : List Nat)) [] 1).map (fun o => o.offsets) = some [0] ∧
    (List.length ([] : List Nat) + 49) / 50 = 0 :=
  ⟨rfl, rfl⟩

/-- C1 (amended): for every paginated `ask_big` fetch of a resource whose
server-reported total count is T, each page returning its items as a list,
the fetch issues max(1, ceil(T/50)) page requests — that is ceil(T/50)
whenever T ≥ 1, and a single request when T = 0 — with startAt values
0, 50, 100, ..., and returns exactly the T items concatenated in page
order, so the accumulated item count equals the total reported in the
first page's envelope when the loop terminates. -/
theorem C1_pagination {α : Type} (allItems : List α) (args0 : List (String × Nat))
    (fuel : Nat) (hfuel : allItems.length ≤ 50 * fuel) (hf : 1 ≤ fuel) :
    ask_bigModel (serverOf allItems) args0 fuel =
      some ⟨FetchResult.items allItems,
            List.range' 0 (pages allItems.length 0) 50,
            setKey (setKey args0 ("maxResults") 50) ("startAt")
              (50 * (pages allItems.length 0 - 1))⟩ ∧
    pages allItems.length 0 = max 1 ((allItems.length + 49) / 50) := by
  constructor
  · have h := askBigLoop_serverOf_eq allItems fuel 0 []
      (setKey args0 ("maxResults") 50) (by omega) hf
    rw [ask_bigModel, h]
    simp
  · unfold pages
    omega

/-- C1 witness: the end-to-end scenario of the spec — a result set of 101
items is fetched in 3 requests with startAt 0, 50, 100, and the shared
args dict ends holding maxResults = 50 and startAt = 100. -/
theorem C1_pagination_witness :
    ask_bigModel (serverOf (List.range 101)) [] 3 =
      some ⟨FetchResult.items (List.range 101), [0, 50, 100],
            [(("maxResults" : String), 50), (("startAt" : String), 100)]⟩ := by
  have h := (C1_pagination (List.range 101) [] 3 (by decide) (by decide)).1
  rw [h]
  rfl

/-- C2 counterexample: two consecutive writes through one client (no think
time, instantaneous transport) both start at time 0, so the second does not
start 1/12 s after the first — writes bypass the rate limiter entirely. -/
theorem C2_counterexample :
    runCalls (minIntervalOf 12)
        [⟨ReqKind.write, 0, 0⟩, ⟨ReqKind.write, 0, 0⟩] 0 0 =
      [(ReqKind.write, 0), (ReqKind.write, 0)] ∧
    ¬ ((0 : ℚ) + minIntervalOf 12 ≤ 0) := by
  constructor
  · simp [runCalls]
  · rw [minIntervalOf]
    norm_num

/-- C2 (amended): only the GETs issued through the decorated `ask` are
throttled: in any timeline of requests through one client (nonnegative
think times and durations, clock not behind the shared cell), the start
times of the `ask` GETs are pairwise spaced at least 1/max_rate = 1/12 s
apart — even across interleaved writes, since only `ask` reads and updates
the shared last-call cell.  Writes issued via `put`/`post`/`_delete` are
neither delayed nor spaced (see the counterexample). -/
theorem C2_ask_spacing (calls : List Call) (now last : ℚ)
    (hk : ∀ c ∈ calls, 0 ≤ c.dur ∧ 0 ≤ c.gap) (h0 : last ≤ now) :
    List.Chain' (fun a b => a + minIntervalOf 12 ≤ b)
      (getStarts (runCalls (minIntervalOf 12) calls now last)) :=
  (runCalls_spacing (minIntervalOf 12) calls now last hk h0).2

/-- C2 witness: two back-to-back `ask` GETs are spaced by the minimum
interval. -/
theorem C2_ask_spacing_witness :
    List.Chain' (fun a b => a + minIntervalOf 12 ≤ b)
      (getStarts (runCalls (minIntervalOf 12)
        [⟨ReqKind.get, 0, 0⟩, ⟨ReqKind.get, 0, 0⟩] 0 0)) :=
  C2_ask_spacing [⟨ReqKind.get, 0, 0⟩, ⟨ReqKind.get, 0, 0⟩] 0 0 (by decide) le_rfl

/-- C3: for a GET through `ask` whose first response is a 429, `ask`
sleeps the configured `retry_delay` and retries exactly once (two
transport GETs in total): a non-429 response on the retry is returned as
the eventual response, while a second 429 raises the fatal
"JAMA overload" error. -/
theorem C3_throttle_retry (base resource : String) (rd : ℚ)
    (get : Nat → GetOutcome) (r1 r2 : Resp)
    (h0 : get 0 = GetOutcome.resp r1) (h429 : r1.status = 429)
    (h1 : get 1 = GetOutcome.resp r2) :
    (r2.status ≠ 429 →
      askModel base resource rd get = ⟨Except.ok r2, 2, rd⟩) ∧
    (r2.status = 429 →
      askModel base resource rd get = ⟨Except.error AskError.overload, 2, rd⟩) := by
  have hstep : askModel base resource rd get =
      askAfterFirst (fullUrl base resource) rd get 1 r1 := by
    simp only [askModel, h0]
  constructor
  · intro hne
    rw [hstep]
    simp [askAfterFirst, h429, h1, hne]
  · intro he
    rw [hstep]
    simp [askAfterFirst, h429, h1, he]

/-- C3 witness: a 429 followed by a 200 on the retry yields the 200
response after two GETs and one retry-delay sleep. -/
theorem C3_throttle_retry_witness :
    askModel ("https://jama.example/rest/latest") ("/widgets") 2
        (fun n => if n = 0 then GetOutcome.resp ⟨429, 0⟩ else GetOutcome.resp ⟨200, 1⟩) =
      ⟨Except.ok ⟨200, 1⟩, 2, 2⟩ :=
  (C3_throttle_retry _ _ 2 _ ⟨429, 0⟩ ⟨200, 1⟩ rfl rfl rfl).1 (by decide)

/-- C4 counterexample: a 429 whose retry returns a 500 — a status at or
above 300 and distinct from 429 — is returned to the caller rather than
raised, because the post-retry response skips the non-success check. -/
theorem C4_counterexample :
    (askModel ("https://jama.example/rest/latest") ("/widgets") 2
        (fun n => if n = 0 then GetOutcome.resp ⟨429, 0⟩
                  else GetOutcome.resp ⟨500, 1⟩)).result =
      Except.ok ⟨500, 1⟩ ∧ 300 ≤ 500 ∧ (500 : Nat) ≠ 429 :=
  ⟨rfl, by omega, by omega⟩

/-- C4 (amended): whenever the first response `ask` obtains (directly, or
after its single connection-error retry) has status at least 300 and is
not 429, `ask` raises the fatal exception carrying that status code and
the full URL and does not return the response; a post-429-retry response
is exempt from this check and is returned whatever its status (see the
counterexample). -/
theorem C4_nonsuccess_raises (base resource : String) (rd : ℚ)
    (get : Nat → GetOutcome) (r : Resp)
    (hge : 300 ≤ r.status) (hne : r.status ≠ 429) :
    (get 0 = GetOutcome.resp r →
      askModel base resource rd get =
        ⟨Except.error (AskError.nonSuccess r.status (fullUrl base resource)), 1, 0⟩) ∧
    (get 0 = GetOutcome.connError → get 1 = GetOutcome.resp r →
      askModel base resource rd get =
        ⟨Except.error (AskError.nonSuccess r.status (fullUrl base resource)), 2, 0⟩) := by
  constructor
  · intro h0
    simp [askModel, h0, askAfterFirst, hne, hge]
  · intro h0 h1
    simp [askModel, h0, h1, askAfterFirst, hne, hge]

/-- C4 witness: a direct 404 is raised as a non-success error naming the
status and the full URL. -/
theorem C4_nonsuccess_raises_witness :
    askModel ("https://jama.example/rest/latest") ("/widgets") 2
        (fun _ => GetOutcome.resp ⟨404, 0⟩) =
      ⟨Except.error (AskError.nonSuccess 404
          (fullUrl ("https://jama.example/rest/latest") ("/widgets"))), 1, 0⟩ :=
  (C4_nonsuccess_raises _ _ 2 _ ⟨404, 0⟩ (by decide) (by decide)).1 rfl

/-- C5: for every write through `_request` whose response is a 401, the
unauthorised `Exception` is constructed but never raised — the effect
trace records only its construction — and the 401 response itself is
returned to the caller as if the call had succeeded (the return type has
no error channel: no path of `_request` raises). -/
theorem C5_unauthorized_write_swallowed (base resource rstr user : String)
    (resp : Resp) (h : resp.status = 401) :
    requestWrite base resource rstr user resp =
      (resp, [WriteEffect.constructedException (unauthorizedMsg rstr user)]) := by
  simp [requestWrite, h]

/-- C5 witness: a 401 on a PUT is returned unchanged with the constructed
exception left unraised. -/
theorem C5_unauthorized_write_swallowed_witness :
    requestWrite ("https://jama.example/rest/latest") ("/testruns/7/lock") ("PUT")
        ("autocreator") ⟨401, 0⟩ =
      (⟨401, 0⟩, [WriteEffect.constructedException
        (unauthorizedMsg ("PUT") ("autocreator"))]) :=
  C5_unauthorized_write_swallowed _ _ _ _ ⟨401, 0⟩ rfl

/-- C6 counterexample: when decoding the PUT response fails (`.json()`
raises), the exception propagates from the line before the unlock, so
`unlock_testrun` is never reached — refuting release on every exit path. -/
theorem C6_counterexample :
    (checkin_runsteps 7 [(("name" : String), JVal.str ("run"))] []
        none none none).unlocked = false := rfl

/-- C6 (amended): whenever the PUT response decodes, `checkin_runsteps`
releases the test-run lock, and on a Bad-Request envelope the fatal error
is raised only after the unlock; but when the submission response fails to
decode, the unlock is skipped (see the counterexample). -/
theorem C6_unlock_after_decode (testrun : Nat)
    (fetchedFields : List (String × JVal)) (steps : List JVal)
    (tester : Option Int) (resulttext : Option String)
    (putDecode : Option Envelope) (env : Envelope) (h : putDecode = some env) :
    (checkin_runsteps testrun fetchedFields steps tester resulttext putDecode).unlocked
      = true ∧
    (env.metaStatus = "Bad Request" →
      (checkin_runsteps testrun fetchedFields steps tester resulttext putDecode).result =
        Except.error (checkinErrMsg testrun env.metaMessage steps.length)) := by
  subst h
  constructor
  · simp only [checkin_runsteps]
    split_ifs <;> rfl
  · intro hbad
    simp only [checkin_runsteps]
    rw [if_pos hbad]

/-- C6 witness: a decoded Bad-Request envelope still unlocks, and the
error raised afterwards carries the server's message. -/
theorem C6_unlock_after_decode_witness :
    (checkin_runsteps 7 [(("testRunStatus" : String), JVal.str ("PASSED"))] []
        none none (some ⟨"Bad Request", "steps mismatch"⟩)).unlocked = true ∧
    (checkin_runsteps 7 [(("testRunStatus" : String), JVal.str ("PASSED"))] []
        none none (some ⟨"Bad Request", "steps mismatch"⟩)).result =
      Except.error (checkinErrMsg 7 ("steps mismatch") 0) := by
  have h := C6_unlock_after_decode 7
    [(("testRunStatus" : String), JVal.str ("PASSED"))] [] none none
    (some ⟨"Bad Request", "steps mismatch"⟩) ⟨"Bad Request", "steps mismatch"⟩ rfl
  exact ⟨h.1, h.2 rfl⟩

/-- C7: evaluation at the failing input — a fetched test run whose fields
contain "executionDate" but not "testRunStatus".  The first `del` raises
`KeyError`, the handler skips the second `del`, and the submitted fields
mapping still contains "executionDate", contradicting the claim that both
server-managed fields are cleared regardless of which of them the fetched
run contained. -/
theorem C7_executionDate_not_cleared :
    (checkin_runsteps 7
        [(("executionDate" : String), JVal.str ("2020-01-01T00:00:00"))] []
        none none (some ⟨"OK", ""⟩)).submitted =
      some [(("executionDate" : String), JVal.str ("2020-01-01T00:00:00")),
            (("testRunSteps" : String), JVal.arr [])] ∧
    hasKey [(("executionDate" : String), JVal.str ("2020-01-01T00:00:00")),
            (("testRunSteps" : String), JVal.arr [])] ("executionDate") = true :=
  ⟨rfl, rfl⟩

/-- C8: for `ask_id` over a fetched result set: a non-empty set in which
every item carries the named field with a value different from the target
raises the fatal not-found error naming the resource, the field and the
target; an empty set instead returns the falsy sentinel `False` without
raising — two distinct outcomes. -/
theorem C8_ask_id_outcomes (resource target fieldName : String)
    (items : List JItem) (hne : items ≠ [])
    (hall : ∀ it ∈ items, ∃ v, getKey it.fields fieldName = some v ∧ v ≠ target) :
    ask_id resource target fieldName items =
      Except.error (notFoundMsg resource fieldName target) ∧
    ask_id resource target fieldName [] = Except.ok AskIdResult.sentinelFalse := by
  constructor
  · have hne2 : items.isEmpty = false := by
      cases items with
      | nil => exact absurd rfl hne
      | cons a l => rfl
    simp [ask_id, hne2, firstMatch_none fieldName target items hall]
  · rfl

/-- C8 witness: one project with a different projectKey yields the
not-found error; the empty set yields the sentinel. -/
theorem C8_ask_id_outcomes_witness :
    ask_id ("/projects") ("PROJX") ("projectKey")
        [⟨101, [(("projectKey" : String), "PROJA")]⟩] =
      Except.error (notFoundMsg ("/projects") ("projectKey") ("PROJX")) ∧
    ask_id ("/projects") ("PROJX") ("projectKey") [] =
      Except.ok AskIdResult.sentinelFalse := by
  refine C8_ask_id_outcomes _ _ _ _ (by simp) ?_
  intro it hit
  simp only [List.mem_singleton] at hit
  subst hit
  exact ⟨"PROJA", rfl, by decide⟩

/-- C9: evaluation of `remove_testrun`: for every test-run id and whatever
the transport would answer, the call raises
`NameError: name json is not defined` — the bare name `json` in `_delete`
is unbound because the module never imports `json` — and zero HTTP
requests are issued, so no DELETE reaches `/testruns/{testrun}` and no
transport response is ever returned. -/
theorem C9_remove_testrun_nameerror (base user : String) (testrun : Nat)
    (transport : Resp) :
    remove_testrun base user testrun transport =
      ⟨Except.error ("NameError: name json is not defined"), 0⟩ := rfl

/-- C10: `ask_big` mutates the caller's args dict: a call that omits
`args` (and therefore uses the one shared default dict) leaves that dict
containing exactly maxResults = 50 and startAt = the offset of the last
page requested, which is what any later `ask_big` call omitting `args`
receives as its starting dict. -/
theorem C10_shared_args_mutation {α : Type} (allItems : List α) (fuel : Nat)
    (hfuel : allItems.length ≤ 50 * fuel) (hf : 1 ≤ fuel) :
    (askBigOmittingArgs (serverOf allItems) fuel []).map (fun p => p.2) =
      some [(("maxResults" : String), 50),
            (("startAt" : String), 50 * (pages allItems.length 0 - 1))] ∧
    (askBigOmittingArgs (serverOf allItems) fuel []).map
        (fun p => p.1.offsets.getLast?) =
      some (some (50 * (pages allItems.length 0 - 1))) := by
  have h := askBigLoop_serverOf_eq allItems fuel 0 []
    (setKey [] ("maxResults") 50) (by omega) hf
  have hrun : ask_bigModel (serverOf allItems) [] fuel =
      some ⟨FetchResult.items ([] ++ allItems.drop 0),
            List.range' 0 (pages allItems.length 0) 50,
            setKey (setKey [] ("maxResults") 50) ("startAt")
              (0 + 50 * (pages allItems.length 0 - 1))⟩ := by
    rw [ask_bigModel]
    exact h
  constructor
  · simp only [askBigOmittingArgs, hrun]
    simp [setKey_pair]
  · simp only [askBigOmittingArgs, hrun]
    simp [range'_getLast? 50 (pages allItems.length 0) 0
      (pages_pos allItems.length 0)]

/-- C10 witness: after the 101-item fetch, the shared default dict holds
maxResults = 50 and startAt = 100, the offset of the last of the three
pages requested. -/
theorem C10_shared_args_mutation_witness :
    (askBigOmittingArgs (serverOf (List.range 101)) 3 []).map (fun p => p.2) =
      some [(("maxResults" : String), 50), (("startAt" : String), 100)] ∧
    (askBigOmittingArgs (serverOf (List.range 101)) 3 []).map
        (fun p => p.1.offsets.getLast?) =
      some (some 100) := by
  have h := C10_shared_args_mutation (List.range 101) 3 (by decide) (by decide)
  have hp : 50 * (pages (List.range 101).length 0 - 1) = 100 := by decide
  rw [hp] at h
  exact h
